import Mathlib

/-!
Verification development for `src/convert.py` of auto-convert-nmf-to-mp3.

The parsing core (packet header decoding, parameter-record scanning,
compression-code extraction, the packet-sequencing loop of
`chunks_generator`, and the stream accumulation / encoder-format selection
of `convert_to_mp3`) is shallowly embedded below.  Byte strings are
`List Nat` (each element a byte value), Python integers are `Int`/`Nat`,
and code that can raise an exception returns `Except PErr`.

The two `float64` header fields (`start_time`, `end_time`) are kept as the
raw 8-byte slices: no control flow or claim depends on their IEEE-754
interpretation, only on the 28-byte offset layout.
-/

/-- Failure modes of the embedded code.

The CPython exceptions raised by `src/convert.py` are modelled as follows:

* `truncatedHeader` — the `struct.error` raised inside `get_packet_header`
  (lines 27-37): the seven fixed-offset `struct.unpack` calls jointly
  succeed exactly when at least 28 bytes are available, and any of them
  raises `struct.error` on shorter input.  This failure mode is what the
  spec's taxonomy (§7) names `TruncatedHeaderError`.
* `badStructFormat` — `struct.error: bad char in struct format`, raised
  when a computed repeat count in a format string is negative
  (e.g. `"{}s".format(-5)`).
* `bufferMismatch` — `struct.error: unpack requires a buffer of N bytes`,
  raised when the buffer length differs from `calcsize(fmt)`.
* `nameError` — `NameError`: a loop variable is read before it was ever
  bound (line 101 when the chunk loop at line 88 ran zero times).
* `keyError` — `KeyError` from a `formats[...]` dictionary lookup miss.
* `malformedPacket` and `unterminatedStream` name the spec-taxonomy
  errors `MalformedPacketError` (§7) and `UnterminatedStreamError` (§7).
  No code path in `src/convert.py` produces them; they are declared so
  that claims mentioning them can be stated and refuted.
* `outOfFuel` is an artifact of the fuel-bounded model of the `while`
  loop; `chunks_generator` and `get_compression_type` supply fuel that
  provably never runs out (see `chunks_generator_ne_outOfFuel` and
  `get_compression_type_ne_outOfFuel`). -/
inductive PErr where
  | truncatedHeader
  | badStructFormat
  | bufferMismatch
  | nameError
  | keyError
  | malformedPacket
  | unterminatedStream
  | outOfFuel
  deriving DecidableEq

/-- Decidable equality for `Except` results, so that concrete runs of the
embedded code can be checked by `decide`. -/
instance {ε α : Type} [DecidableEq ε] [DecidableEq α] : DecidableEq (Except ε α) := fun a b =>
  match a, b with
  | .error x, .error y =>
    if h : x = y then .isTrue (congrArg Except.error h)
    else .isFalse (fun hc => h (Except.error.inj hc))
  | .ok x, .ok y =>
    if h : x = y then .isTrue (congrArg Except.ok h)
    else .isFalse (fun hc => h (Except.ok.inj hc))
  | .error _, .ok _ => .isFalse (fun hc => Except.noConfusion hc)
  | .ok _, .error _ => .isFalse (fun hc => Except.noConfusion hc)

/-- Value of a byte reinterpreted as a signed 8-bit integer
(struct format `"b"`). -/
def toInt8 (b : Nat) : Int :=
  if b % 256 < 128 then (b % 256 : Int) else (b % 256 : Int) - 256

/-- Two little-endian bytes as a signed 16-bit integer (struct `"h"`). -/
def toInt16 (b0 b1 : Nat) : Int :=
  let v := b0 % 256 + 256 * (b1 % 256)
  if v < 32768 then (v : Int) else (v : Int) - 65536

/-- Four little-endian bytes as a signed 32-bit integer (struct `"i"`). -/
def toInt32 (b0 b1 b2 b3 : Nat) : Int :=
  let v := b0 % 256 + 256 * (b1 % 256) + 65536 * (b2 % 256) + 16777216 * (b3 % 256)
  if v < 2147483648 then (v : Int) else (v : Int) - 4294967296

/-- Four little-endian bytes as an unsigned 32-bit integer (struct `"I"`). -/
def toNat32 (b0 b1 b2 b3 : Nat) : Nat :=
  b0 % 256 + 256 * (b1 % 256) + 65536 * (b2 % 256) + 16777216 * (b3 % 256)

/-- Normalisation of one bound of a Python slice `l[a:b]`: a negative
index counts from the end, and indices are clamped to the length. -/
def pyIdx (len : Nat) (i : Int) : Nat :=
  if i < 0 then ((len : Int) + i).toNat else min i.toNat len

/-- Python slice `l[a:b]`.  Out-of-range bounds are clamped, never an
error; an empty slice results when the normalised start is at or past the
normalised stop. -/
def pySlice (l : List Nat) (a b : Int) : List Nat :=
  (l.take (pyIdx l.length b)).drop (pyIdx l.length a)

/-- Result of `struct.unpack("b", l)`: exactly one byte, signed. -/
def unpack_b (l : List Nat) : Except PErr Int :=
  if h : l.length = 1 then .ok (toInt8 (l.get ⟨0, by omega⟩))
  else .error .bufferMismatch

/-- Result of `struct.unpack("h", l)`: exactly two bytes, signed LE. -/
def unpack_h (l : List Nat) : Except PErr Int :=
  if h : l.length = 2 then
    .ok (toInt16 (l.get ⟨0, by omega⟩) (l.get ⟨1, by omega⟩))
  else .error .bufferMismatch

/-- Result of `struct.unpack("i", l)`: exactly four bytes, signed LE. -/
def unpack_i (l : List Nat) : Except PErr Int :=
  if h : l.length = 4 then
    .ok (toInt32 (l.get ⟨0, by omega⟩) (l.get ⟨1, by omega⟩)
          (l.get ⟨2, by omega⟩) (l.get ⟨3, by omega⟩))
  else .error .bufferMismatch

/-- Result of `struct.unpack("16s", l)`: exactly sixteen raw bytes. -/
def unpack_16s (l : List Nat) : Except PErr (List Nat) :=
  if l.length = 16 then .ok l else .error .bufferMismatch

/-- Result of `struct.unpack("{n}s", l)` for a computed count `n`.
A negative `n` makes the format string itself invalid
(`struct.error: bad char in struct format`); otherwise the buffer must
hold exactly `n` bytes, which are returned raw. -/
def unpack_s (n : Int) (l : List Nat) : Except PErr (List Nat) :=
  if n < 0 then .error .badStructFormat
  else if (l.length : Int) = n then .ok l else .error .bufferMismatch

/-- Decoded 28-byte packet header (spec §3/§6; src/convert.py lines 29-37).
`start_time` and `end_time` keep their raw 8-byte slices. -/
structure Header where
  packet_type : Int
  packet_subtype : Int
  stream_id : Int
  start_time : List Nat
  end_time : List Nat
  packet_size : Nat
  parameters_size : Nat
  deriving DecidableEq

/-- Embeds `get_packet_header` (src/convert.py lines 27-37).  The seven
`struct.unpack` calls at fixed offsets 0,1,3,4,12,20,24 jointly succeed
exactly when the input holds at least 28 bytes; the `struct.error` any of
them raises on shorter input is modelled as `PErr.truncatedHeader`
(see the doc of `PErr`). -/
def get_packet_header (d : List Nat) : Except PErr Header :=
  if h : 28 ≤ d.length then
    .ok { packet_type := toInt8 (d.get ⟨0, by omega⟩)
        , packet_subtype := toInt16 (d.get ⟨1, by omega⟩) (d.get ⟨2, by omega⟩)
        , stream_id := toInt8 (d.get ⟨3, by omega⟩)
        , start_time := pySlice d 4 12
        , end_time := pySlice d 12 20
        , packet_size := toNat32 (d.get ⟨20, by omega⟩) (d.get ⟨21, by omega⟩)
            (d.get ⟨22, by omega⟩) (d.get ⟨23, by omega⟩)
        , parameters_size := toNat32 (d.get ⟨24, by omega⟩) (d.get ⟨25, by omega⟩)
            (d.get ⟨26, by omega⟩) (d.get ⟨27, by omega⟩) }
  else .error .truncatedHeader

/-- The media-packet predicate of src/convert.py line 70:
`(packet_type == 4 and packet_subtype in [0, 3]) or
(packet_type == 5 and packet_subtype == 300)`. -/
def isMedia (h : Header) : Bool :=
  (h.packet_type == 4 && (h.packet_subtype == 0 || h.packet_subtype == 3)) ||
  (h.packet_type == 5 && h.packet_subtype == 300)

/-- Python comparison `t == 0` between a tuple (the result of
`struct.unpack`) and the int literal `0`.  In CPython a tuple never
compares equal to an int, so this is constantly `false`; consequently the
re-read at offset 8 in `get_data_value` (line 53) is dead code. -/
def tupleEqInt (_t : List Nat) (_n : Int) : Bool := false

/-- Embeds `get_data_value` (src/convert.py lines 48-55).
`data` is the 16-byte record payload, `data_size` the record's decoded
size field.  Mirrors the source: unpack the first `data_size` bytes
(format `"{data_size}s"`), a dead re-read branch guarded by a
tuple-vs-int comparison, then `struct.unpack("b", ...)` on the unpacked
byte string, which requires it to be exactly one byte long. -/
def get_data_value (data : List Nat) (data_size : Int) : Except PErr Int :=
  match unpack_s data_size (pySlice data 0 data_size) with
  | .error e => .error e
  | .ok dv0 =>
    match (if tupleEqInt dv0 0 then unpack_s data_size (pySlice data 8 data_size)
           else .ok dv0) with
    | .error e => .error e
    | .ok dv => unpack_b dv

/-- Fuel-bounded embedding of the record loop of `get_compression_type`
(src/convert.py lines 41-46): `for i in range(0, len(data), 22)`.
Each iteration unpacks `type_id` (`"h"` at offset i), `data_size` (`"i"`
at i+2) and the 16-byte payload (`"16s"` at i+6) — all three before the
`type_id == 10` test, so a trailing partial record raises `struct.error`.
The fuel argument only bounds the number of iterations; the caller
`get_compression_type` supplies fuel that provably never runs out. -/
def scanRecordsF : Nat → List Nat → Nat → Except PErr (Option Int)
  | 0, _, _ => .error .outOfFuel
  | fuel + 1, data, i =>
    if i < data.length then
      match unpack_h (pySlice data i (i + 2)) with
      | .error e => .error e
      | .ok type_id =>
        match unpack_i (pySlice data (i + 2) (i + 6)) with
        | .error e => .error e
        | .ok data_size =>
          match unpack_16s (pySlice data (i + 6) (i + 22)) with
          | .error e => .error e
          | .ok temp =>
            if type_id = 10 then
              match get_data_value temp data_size with
              | .error e => .error e
              | .ok v => .ok (some v)
            else scanRecordsF fuel data (i + 22)
    else .ok none

/-- Embeds `get_compression_type` (src/convert.py lines 39-46).
Returns `none` when the loop falls through without a `type_id == 10`
record (Python's implicit `return None`). -/
def get_compression_type (data : List Nat) : Except PErr (Option Int) :=
  scanRecordsF (data.length + 1) data 0

/-- One media chunk as yielded by `chunks_generator` (line 76-78):
the compression code (or `none` for Python `None`), the stream id, and
the raw payload bytes. -/
structure Chunk where
  compression : Option Int
  stream_id : Int
  bytes : List Nat
  deriving DecidableEq

/-- Embeds the media branch of the sequencing loop (src/convert.py
lines 71-78) for the packet whose decoded header `h` sits at cursor `c`:
compute `chunk_start = c + 28 + parameters_size`,
`chunk_end = chunk_start + packet_size - parameters_size`, unpack the
payload with format `"{chunk_end - chunk_start}s"`, then scan the
parameter block for the compression code.  The payload unpack happens
first (line 75), the parameter scan at the yield (line 76). -/
def mkChunk (data : List Nat) (c : Nat) (h : Header) : Except PErr Chunk :=
  let chunk_start : Int := (c : Int) + 28 + (h.parameters_size : Int)
  let chunk_end : Int := chunk_start + (h.packet_size : Int) - (h.parameters_size : Int)
  let chunk_length : Int := chunk_end - chunk_start
  match unpack_s chunk_length (pySlice data chunk_start chunk_end) with
  | .error e => .error e
  | .ok raw =>
    match get_compression_type (pySlice data ((c : Int) + 28) ((c : Int) + 28 + (h.parameters_size : Int))) with
    | .error e => .error e
    | .ok comp => .ok { compression := comp, stream_id := h.stream_id, bytes := raw }

/-- Fuel-bounded embedding of the `while True` sequencing loop of
`chunks_generator` (src/convert.py lines 65-82), started at cursor `c`:
decode the header at `data[c:c+28]`, emit a chunk if the packet is a
media packet, advance the cursor by `packet_size + 28`, and stop after a
packet with `packet_type == 7`.  The produced value is the list of all
yielded chunks (the sole consumer, `convert_to_mp3`, drains the
generator), or the first exception raised.  The fuel argument only
bounds the number of loop iterations; `chunks_generator` supplies fuel
that provably never runs out (`chunks_generator_ne_outOfFuel`). -/
def chunksFromF : Nat → List Nat → Nat → Except PErr (List Chunk)
  | 0, _, _ => .error .outOfFuel
  | fuel + 1, data, c =>
    match get_packet_header (pySlice data (c : Int) ((c : Int) + 28)) with
    | .error e => .error e
    | .ok h =>
      if isMedia h then
        match mkChunk data c h with
        | .error e => .error e
        | .ok ch =>
          if h.packet_type = 7 then .ok [ch]
          else
            match chunksFromF fuel data (c + h.packet_size + 28) with
            | .error e => .error e
            | .ok rest => .ok (ch :: rest)
      else
        if h.packet_type = 7 then .ok []
        else chunksFromF fuel data (c + h.packet_size + 28)

/-- Embeds `chunks_generator` (src/convert.py line 57) applied to the
full container bytes, started at offset 0.  Each loop iteration consumes
at least 28 bytes of cursor progress, so `data.length + 1` units of fuel
always suffice (`chunks_generator_ne_outOfFuel`). -/
def chunks_generator (data : List Nat) : Except PErr (List Chunk) :=
  chunksFromF (data.length + 1) data 0

/-- Packet trace of the same sequencing loop: the `(cursor, header)`
pair of every packet the loop decodes, the terminal `packet_type == 7`
packet included.  Used to relate the emitted chunks to the packets they
come from. -/
def headersFromF : Nat → List Nat → Nat → Except PErr (List (Nat × Header))
  | 0, _, _ => .error .outOfFuel
  | fuel + 1, data, c =>
    match get_packet_header (pySlice data (c : Int) ((c : Int) + 28)) with
    | .error e => .error e
    | .ok h =>
      if h.packet_type = 7 then .ok [(c, h)]
      else
        match headersFromF fuel data (c + h.packet_size + 28) with
        | .error e => .error e
        | .ok rest => .ok ((c, h) :: rest)

/-- The `formats` dictionary (src/convert.py lines 8-18); `none` models
a key miss. -/
def formats (c : Int) : Option String :=
  if c = 0 then some "g729"
  else if c = 1 then some "g726"
  else if c = 2 then some "g726"
  else if c = 3 then some "alaw"
  else if c = 7 then some "mulaw"
  else if c = 8 then some "g729"
  else if c = 9 then some "g723_1"
  else if c = 10 then some "g723_1"
  else if c = 19 then some "g722"
  else none

/-- State of the accumulation loop of `convert_to_mp3` (src/convert.py
lines 86-90): the two retained per-stream buffers
(`audio_chunks = {0: b'', 1: b''}`) plus the binding state of the loop
variable `compression`.  `compression = none` means the variable was
never bound (the loop ran zero times); `some v` means its current value
is `v` (itself an `Option Int`, Python `None` or an int). -/
structure AccState where
  buf0 : List Nat
  buf1 : List Nat
  compression : Option (Option Int)

/-- One iteration of the chunk loop (lines 88-90): the tuple unpacking
binds `compression` for every chunk, retained stream or not; the buffer
append happens only for `stream_id in audio_chunks`, i.e. ids 0 and 1. -/
def accStep (s : AccState) (ch : Chunk) : AccState :=
  { buf0 := if ch.stream_id = 0 then s.buf0 ++ ch.bytes else s.buf0
  , buf1 := if ch.stream_id = 1 then s.buf1 ++ ch.bytes else s.buf1
  , compression := some ch.compression }

/-- The whole accumulation loop over a chunk sequence. -/
def accumulate (chunks : List Chunk) : AccState :=
  chunks.foldl accStep { buf0 := [], buf1 := [], compression := none }

/-- The encoder-format selection of src/convert.py line 101:
`formats[compression] if compression is not None else formats[0]`,
evaluated after the chunk loop.  Reading `compression` when the loop ran
zero times raises `NameError`; a dictionary miss raises `KeyError`. -/
def selectFormat (s : AccState) : Except PErr String :=
  match s.compression with
  | none => .error .nameError
  | some comp =>
    match comp with
    | none => match formats 0 with
              | some f => .ok f
              | none => .error .keyError
    | some v => match formats v with
                | some f => .ok f
                | none => .error .keyError

/-- The format the loop at src/convert.py lines 100-101 computes for a
given retained stream.  The expression does not mention the stream id at
all: both iterations of `for stream_id in audio_chunks` evaluate the
same `formats[compression] if compression is not None else formats[0]`. -/
def formatForStream (chunks : List Chunk) (_stream_id : Int) : Except PErr String :=
  selectFormat (accumulate chunks)

/-- The data-processing core of `convert_to_mp3` (src/convert.py
lines 84-101): drain the generator, accumulate per-stream buffers, and
select the encoder format (identical for both streams).  The ffmpeg
subprocess plumbing, file naming and logging are out of scope (spec §1). -/
def convert_to_mp3 (data : List Nat) : Except PErr (List Nat × List Nat × String) :=
  match chunks_generator data with
  | .error e => .error e
  | .ok chunks =>
    let s := accumulate chunks
    match selectFormat s with
    | .error e => .error e
    | .ok fmt => .ok (s.buf0, s.buf1, fmt)

/-- In-order concatenation of the payload bytes of a chunk list. -/
def catBytes (l : List Chunk) : List Nat :=
  (l.map (fun ch => ch.bytes)).flatten

/-- Modelled from the spec: the per-stream codec assignment that claim C8
(spec §4.5 together with §3's default) asserts — the most recently
observed non-`unknown` compression code among the chunks of that stream,
a stream with no such code defaulting to codec `g729`.  Stated from the
spec's words, for comparison with what the code computes. -/
def specStreamCodec (chunks : List Chunk) (sid : Int) : String :=
  match ((chunks.filter (fun ch => ch.stream_id == sid)).filterMap
          (fun ch => ch.compression)).getLast? with
  | some v => (formats v).getD "g729"
  | none => "g729"

/-- The format `convert_to_mp3` line 101 yields as a function of the
last-bound value of the loop variable `compression`:
`formats[compression]` when it is not `None` — a `KeyError` on a table
miss — and `formats[0] = "g729"` when it is `None`. -/
def pyFormatOf : Option Int → Except PErr String
  | none => .ok "g729"
  | some v =>
    match formats v with
    | some f => .ok f
    | none => .error .keyError

/-- Modelled from the spec: `get_data_value` with the dead re-read
branch removed (spec §4.3 calls this branch out as a path that can never
trigger).  Used to state that the branch never affects the result. -/
def get_data_value_nofb (data : List Nat) (data_size : Int) : Except PErr Int :=
  match unpack_s data_size (pySlice data 0 data_size) with
  | .error e => .error e
  | .ok dv => unpack_b dv

/-- A list of `n` zero bytes. -/
def zeros (n : Nat) : List Nat := List.replicate n 0

/-- A 28-byte header of a media packet (type 4, subtype 0, stream 0)
whose `packet_size` (0) is smaller than its `parameters_size` (5). -/
def c1data : List Nat := [4, 0, 0, 0] ++ zeros 16 ++ [0, 0, 0, 0] ++ [5, 0, 0, 0]

/-- The decoded header of `c1data`. -/
def c1hdr : Header :=
  { packet_type := 4, packet_subtype := 0, stream_id := 0
  , start_time := zeros 8, end_time := zeros 8
  , packet_size := 0, parameters_size := 5 }

/-- A 28-byte terminal header: type 7, `packet_size = 0`. -/
def termHdrBytes : List Nat := [7, 0, 0, 0] ++ zeros 16 ++ [0, 0, 0, 0] ++ [0, 0, 0, 0]

/-- The decoded header of `termHdrBytes`. -/
def termHdr : Header :=
  { packet_type := 7, packet_subtype := 0, stream_id := 0
  , start_time := zeros 8, end_time := zeros 8
  , packet_size := 0, parameters_size := 0 }

/-- A container with a non-media packet (type 1) whose
`packet_size` (0) is smaller than its `parameters_size` (5), followed by
a terminal type-7 packet. -/
def c1bad : List Nat :=
  [1, 0, 0, 0] ++ zeros 16 ++ [0, 0, 0, 0] ++ [5, 0, 0, 0] ++ termHdrBytes

/-- A 28-byte container holding a single non-media, non-terminal packet
claiming `packet_size = 100`: advancing the cursor (to 128) exceeds the
container length before any type-7 packet. -/
def c3bad : List Nat := [1, 0, 0, 0] ++ zeros 16 ++ [100, 0, 0, 0] ++ [0, 0, 0, 0]

/-- The decoded header of `c3bad`. -/
def c3hdr : Header :=
  { packet_type := 1, packet_subtype := 0, stream_id := 0
  , start_time := zeros 8, end_time := zeros 8
  , packet_size := 100, parameters_size := 0 }

/-- A terminal type-7 header followed by three trailing bytes. -/
def c4data : List Nat := termHdrBytes ++ [9, 9, 9]

/-- Header of the spec §8 concrete scenario's media packet:
type 4, subtype 0, stream 0, `packet_size = 50`, `parameters_size = 22`. -/
def c5hdr1bytes : List Nat := [4, 0, 0, 0] ++ zeros 16 ++ [50, 0, 0, 0] ++ [22, 0, 0, 0]

/-- One complete 22-byte parameter record with `type_id = 10`,
`data_size = 1`, and payload starting with byte 3. -/
def c5rec : List Nat := [10, 0] ++ [1, 0, 0, 0] ++ [3] ++ zeros 15

/-- The spec §8 concrete container: one media packet (22-byte parameter
record, 28 payload bytes of value 1), then a terminal type-7 packet. -/
def c5data : List Nat := c5hdr1bytes ++ c5rec ++ List.replicate 28 1 ++ termHdrBytes

/-- The single chunk the spec §8 scenario yields. -/
def c5chunks : List Chunk :=
  [{ compression := some 3, stream_id := 0, bytes := List.replicate 28 1 }]

/-- A 16-byte record payload whose first byte is 3. -/
def c7data : List Nat := [3] ++ zeros 15

/-- One complete 22-byte parameter record with `type_id = 9` (not the
compression marker), `data_size = 1`, payload starting with byte 3. -/
def c6rec2 : List Nat := [9, 0] ++ [1, 0, 0, 0] ++ [3] ++ zeros 15

/-- A chunk of stream 1 carrying compression code 7 (mulaw). -/
def ex8last : Chunk := { compression := some 7, stream_id := 1, bytes := [2] }

/-- A two-chunk sequence: stream 0 with code 3 (alaw), then stream 1
with code 7 (mulaw). -/
def ex8 : List Chunk :=
  [{ compression := some 3, stream_id := 0, bytes := [1] }, ex8last]

theorem pySlice_len_nonneg (l : List Nat) (a b : Int) (ha : 0 ≤ a) (hb : 0 ≤ b) :
    (pySlice l a b).length = min b.toNat l.length - min a.toNat l.length := by
  simp only [pySlice, pyIdx, List.length_drop, List.length_take]
  split <;> split <;> omega

theorem get_packet_header_short {d : List Nat} (hd : d.length < 28) :
    get_packet_header d = .error .truncatedHeader := by
  rw [get_packet_header, dif_neg (by omega)]

theorem get_packet_header_ok_le {d : List Nat} {h : Header}
    (hh : get_packet_header d = Except.ok h) : 28 ≤ d.length := by
  by_contra hc
  rw [get_packet_header_short (by omega)] at hh
  exact Except.noConfusion hh

theorem header_ok_bound {data : List Nat} {c : Nat} {h : Header}
    (hh : get_packet_header (pySlice data (c : Int) ((c : Int) + 28)) = Except.ok h) :
    c + 28 ≤ data.length := by
  have h1 := get_packet_header_ok_le hh
  rw [pySlice_len_nonneg data (c : Int) ((c : Int) + 28) (by omega) (by omega)] at h1
  omega

theorem chunksFromF_short (fuel : Nat) (data : List Nat) (c : Nat)
    (hf : 1 ≤ fuel) (hlen : data.length < c + 28) :
    chunksFromF fuel data c = .error .truncatedHeader := by
  obtain ⟨k, rfl⟩ : ∃ k, fuel = k + 1 := ⟨fuel - 1, by omega⟩
  have hs : (pySlice data (c : Int) ((c : Int) + 28)).length < 28 := by
    rw [pySlice_len_nonneg data (c : Int) ((c : Int) + 28) (by omega) (by omega)]
    omega
  simp only [chunksFromF]
  rw [get_packet_header_short hs]

theorem isMedia_false_of_seven {h : Header} (h7 : h.packet_type = 7) :
    isMedia h = false := by
  simp [isMedia, h7]

theorem unpack_s_neg {n : Int} {l : List Nat} (hn : n < 0) :
    unpack_s n l = .error .badStructFormat := by
  simp [unpack_s, hn]

theorem unpack_s_ok {n : Int} {l r : List Nat} (hh : unpack_s n l = .ok r) :
    r = l ∧ (l.length : Int) = n ∧ 0 ≤ n := by
  unfold unpack_s at hh
  split at hh
  · exact Except.noConfusion hh
  · split at hh
    · exact ⟨(Except.ok.inj hh).symm, by omega, by omega⟩
    · exact Except.noConfusion hh

theorem unpack_s_err {n : Int} {l : List Nat} {e : PErr} (hh : unpack_s n l = .error e) :
    e = .badStructFormat ∨ e = .bufferMismatch := by
  unfold unpack_s at hh
  split at hh
  · exact Or.inl (Except.error.inj hh).symm
  · split at hh
    · exact Except.noConfusion hh
    · exact Or.inr (Except.error.inj hh).symm

theorem unpack_b_err {l : List Nat} {e : PErr} (hh : unpack_b l = .error e) :
    e = .bufferMismatch := by
  unfold unpack_b at hh
  split at hh
  · exact Except.noConfusion hh
  · exact (Except.error.inj hh).symm

theorem unpack_b_ne_one {l : List Nat} (hl : l.length ≠ 1) :
    unpack_b l = .error .bufferMismatch := by
  rw [unpack_b, dif_neg hl]

theorem unpack_h_ne_two {l : List Nat} (hl : l.length ≠ 2) :
    unpack_h l = .error .bufferMismatch := by
  rw [unpack_h, dif_neg hl]

theorem unpack_h_two {l : List Nat} (hl : l.length = 2) :
    ∃ v, unpack_h l = .ok v := by
  rw [unpack_h, dif_pos hl]
  exact ⟨_, rfl⟩

theorem unpack_i_ne_four {l : List Nat} (hl : l.length ≠ 4) :
    unpack_i l = .error .bufferMismatch := by
  rw [unpack_i, dif_neg hl]

theorem unpack_i_four {l : List Nat} (hl : l.length = 4) :
    ∃ v, unpack_i l = .ok v := by
  rw [unpack_i, dif_pos hl]
  exact ⟨_, rfl⟩

theorem unpack_16s_ne {l : List Nat} (hl : l.length ≠ 16) :
    unpack_16s l = .error .bufferMismatch := by
  rw [unpack_16s, if_neg hl]

theorem unpack_16s_ok_len {l temp : List Nat} (hh : unpack_16s l = .ok temp) :
    l.length = 16 := by
  unfold unpack_16s at hh
  split at hh
  · assumption
  · exact Except.noConfusion hh

theorem mkChunk_of_undersized {data : List Nat} {c : Nat} {h : Header}
    (hlt : h.packet_size < h.parameters_size) :
    mkChunk data c h = .error .badStructFormat := by
  simp only [mkChunk]
  rw [unpack_s_neg (by omega)]

theorem mkChunk_ok {data : List Nat} {c : Nat} {h : Header} {ch : Chunk}
    (hh : mkChunk data c h = .ok ch) :
    ch.bytes = pySlice data ((c : Int) + 28 + (h.parameters_size : Int))
        ((c : Int) + 28 + (h.packet_size : Int)) ∧
    (ch.bytes.length : Int) = (h.packet_size : Int) - (h.parameters_size : Int) ∧
    h.parameters_size ≤ h.packet_size := by
  simp only [mkChunk] at hh
  split at hh
  · exact Except.noConfusion hh
  · rename_i raw hraw
    split at hh
    · exact Except.noConfusion hh
    · rename_i comp hcomp
      obtain ⟨hr, hlen, hnn⟩ := unpack_s_ok hraw
      have hb : ch.bytes = raw := by
        have := Except.ok.inj hh
        rw [← this]
      rw [hb, hr]
      have he : (c : Int) + 28 + (h.parameters_size : Int) + (h.packet_size : Int)
          - (h.parameters_size : Int) = (c : Int) + 28 + (h.packet_size : Int) := by ring
      rw [he] at hlen ⊢
      refine ⟨rfl, ?_, ?_⟩
      · rw [hlen]; ring
      · omega

theorem unpack_h_err {l : List Nat} {e : PErr} (hh : unpack_h l = .error e) :
    e = .bufferMismatch := by
  unfold unpack_h at hh
  split at hh
  · exact Except.noConfusion hh
  · exact (Except.error.inj hh).symm

theorem unpack_i_err {l : List Nat} {e : PErr} (hh : unpack_i l = .error e) :
    e = .bufferMismatch := by
  unfold unpack_i at hh
  split at hh
  · exact Except.noConfusion hh
  · exact (Except.error.inj hh).symm

theorem unpack_16s_err {l : List Nat} {e : PErr} (hh : unpack_16s l = .error e) :
    e = .bufferMismatch := by
  unfold unpack_16s at hh
  split at hh
  · exact Except.noConfusion hh
  · exact (Except.error.inj hh).symm

theorem get_packet_header_err {d : List Nat} {e : PErr}
    (hh : get_packet_header d = .error e) : e = .truncatedHeader := by
  unfold get_packet_header at hh
  split at hh
  · exact Except.noConfusion hh
  · exact (Except.error.inj hh).symm

theorem get_data_value_err {data : List Nat} {n : Int} {e : PErr}
    (hh : get_data_value data n = .error e) :
    e = .badStructFormat ∨ e = .bufferMismatch := by
  unfold get_data_value at hh
  split at hh
  · rename_i e1 he1
    cases Except.error.inj hh
    exact unpack_s_err he1
  · rename_i dv0 hdv0
    split at hh
    · rename_i e1 he1
      cases Except.error.inj hh
      rw [if_neg (by simp [tupleEqInt])] at he1
      exact Except.noConfusion he1
    · exact Or.inr (unpack_b_err hh)

theorem scanRecordsF_ne_outOfFuel : ∀ (fuel : Nat) (data : List Nat) (i : Nat),
    1 ≤ fuel → data.length < i + 22 * fuel →
    scanRecordsF fuel data i ≠ .error .outOfFuel := by
  intro fuel
  induction fuel with
  | zero => intro data i h1 _; omega
  | succ k ih =>
    intro data i _ hlen
    simp only [scanRecordsF]
    split
    · rename_i hi
      split
      · rename_i e he
        intro hc
        cases Except.error.inj hc
        exact absurd (unpack_h_err he) (by simp)
      · rename_i tid htid
        split
        · rename_i e he
          intro hc
          cases Except.error.inj hc
          exact absurd (unpack_i_err he) (by simp)
        · rename_i dsz hdsz
          split
          · rename_i e he
            intro hc
            cases Except.error.inj hc
            exact absurd (unpack_16s_err he) (by simp)
          · rename_i temp htemp
            have h16 := unpack_16s_ok_len htemp
            rw [pySlice_len_nonneg data ((i : Int) + 6) ((i : Int) + 22)
                (by omega) (by omega)] at h16
            split
            · split
              · rename_i e he
                intro hc
                cases Except.error.inj hc
                rcases get_data_value_err he with h1 | h1 <;> exact PErr.noConfusion h1
              · intro hc
                exact Except.noConfusion hc
            · exact ih data (i + 22) (by omega) (by omega)
    · intro hc
      exact Except.noConfusion hc

theorem get_compression_type_ne_outOfFuel (data : List Nat) :
    get_compression_type data ≠ .error .outOfFuel :=
  scanRecordsF_ne_outOfFuel (data.length + 1) data 0 (by omega) (by omega)

theorem mkChunk_ne_outOfFuel (data : List Nat) (c : Nat) (h : Header) :
    mkChunk data c h ≠ .error .outOfFuel := by
  simp only [mkChunk]
  split
  · rename_i e he
    intro hc
    cases Except.error.inj hc
    rcases unpack_s_err he with h1 | h1 <;> exact PErr.noConfusion h1
  · split
    · rename_i e he
      intro hc
      cases Except.error.inj hc
      exact get_compression_type_ne_outOfFuel _ he
    · intro hc
      exact Except.noConfusion hc

theorem chunksFromF_ne_outOfFuel : ∀ (fuel : Nat) (data : List Nat) (c : Nat),
    1 ≤ fuel → data.length < c + 28 * fuel →
    chunksFromF fuel data c ≠ .error .outOfFuel := by
  intro fuel
  induction fuel with
  | zero => intro data c h1 _; omega
  | succ k ih =>
    intro data c _ hlen
    simp only [chunksFromF]
    split
    · rename_i e he
      intro hc
      cases Except.error.inj hc
      exact absurd (get_packet_header_err he) (by simp)
    · rename_i h he
      have hbound := header_ok_bound he
      have hk : k = 0 → False := by intro h0; omega
      split
      · split
        · rename_i e hmk
          intro hc
          cases Except.error.inj hc
          exact absurd hmk (mkChunk_ne_outOfFuel data c h)
        · rename_i ch hch
          split
          · intro hc
            exact Except.noConfusion hc
          · split
            · rename_i e hrec
              intro hc
              cases Except.error.inj hc
              exact absurd hrec (ih data (c + h.packet_size + 28) (by omega) (by omega))
            · intro hc
              exact Except.noConfusion hc
      · split
        · intro hc
          exact Except.noConfusion hc
        · exact ih data (c + h.packet_size + 28) (by omega) (by omega)

/-- The fuel supplied by `chunks_generator` never runs out: the model's
`outOfFuel` artifact is unreachable from the top level. -/
theorem chunks_generator_ne_outOfFuel (data : List Nat) :
    chunks_generator data ≠ .error .outOfFuel :=
  chunksFromF_ne_outOfFuel (data.length + 1) data 0 (by omega) (by omega)

theorem foldl_accStep_compression : ∀ (chunks : List Chunk) (s : AccState),
    (chunks.foldl accStep s).compression =
      (match chunks.getLast? with
       | some ch => some ch.compression
       | none => s.compression) := by
  intro chunks
  induction chunks with
  | nil => intro s; rfl
  | cons ch t ih =>
    intro s
    rw [List.foldl_cons, ih]
    cases t with
    | nil => rfl
    | cons ch2 t2 =>
      rw [List.getLast?_cons_cons]
      cases hgl : (ch2 :: t2).getLast? with
      | none => simp at hgl
      | some lch => rfl

theorem foldl_accStep_buf0 : ∀ (chunks : List Chunk) (s : AccState),
    (chunks.foldl accStep s).buf0 =
      s.buf0 ++ catBytes (chunks.filter (fun ch => ch.stream_id == 0)) := by
  intro chunks
  induction chunks with
  | nil => intro s; simp [catBytes]
  | cons ch t ih =>
    intro s
    rw [List.foldl_cons, ih]
    by_cases h0 : ch.stream_id = 0
    · rw [List.filter_cons_of_pos (by simp [h0])]
      simp [catBytes, accStep, h0]
    · rw [List.filter_cons_of_neg (by simp [h0])]
      simp [accStep, h0]

theorem foldl_accStep_buf1 : ∀ (chunks : List Chunk) (s : AccState),
    (chunks.foldl accStep s).buf1 =
      s.buf1 ++ catBytes (chunks.filter (fun ch => ch.stream_id == 1)) := by
  intro chunks
  induction chunks with
  | nil => intro s; simp [catBytes]
  | cons ch t ih =>
    intro s
    rw [List.foldl_cons, ih]
    by_cases h1 : ch.stream_id = 1
    · rw [List.filter_cons_of_pos (by simp [h1])]
      simp [catBytes, accStep, h1]
    · rw [List.filter_cons_of_neg (by simp [h1])]
      simp [accStep, h1]

theorem chunks_headers_rel : ∀ (fuel : Nat) (data : List Nat) (c : Nat)
    (chunks : List Chunk), chunksFromF fuel data c = .ok chunks →
    ∃ hdrs, headersFromF fuel data c = .ok hdrs ∧
      List.Forall₂ (fun p ch => mkChunk data p.1 p.2 = .ok ch)
        (hdrs.filter (fun p => isMedia p.2)) chunks := by
  intro fuel
  induction fuel with
  | zero => intro data c chunks hc; exact Except.noConfusion hc
  | succ k ih =>
    intro data c chunks hc
    simp only [chunksFromF] at hc
    split at hc
    · exact Except.noConfusion hc
    · rename_i h hph
      split at hc
      · rename_i hmedia
        split at hc
        · exact Except.noConfusion hc
        · rename_i ch hmk
          split at hc
          · rename_i h7
            exact absurd hmedia (by simp [isMedia_false_of_seven h7])
          · rename_i h7
            split at hc
            · exact Except.noConfusion hc
            · rename_i rest hrec
              cases Except.ok.inj hc
              obtain ⟨hdrs, hH, hF⟩ := ih data (c + h.packet_size + 28) rest hrec
              refine ⟨(c, h) :: hdrs, ?_, ?_⟩
              · simp only [headersFromF, hph]
                rw [if_neg h7, hH]
              · rw [List.filter_cons_of_pos (by simpa using hmedia)]
                exact List.Forall₂.cons hmk hF
      · rename_i hmedia
        split at hc
        · rename_i h7
          cases Except.ok.inj hc
          refine ⟨[(c, h)], ?_, ?_⟩
          · simp only [headersFromF, hph]
            rw [if_pos h7]
          · rw [List.filter_cons_of_neg (by simpa using hmedia)]
            exact List.Forall₂.nil
        · rename_i h7
          obtain ⟨hdrs, hH, hF⟩ := ih data (c + h.packet_size + 28) chunks hc
          refine ⟨(c, h) :: hdrs, ?_, ?_⟩
          · simp only [headersFromF, hph]
            rw [if_neg h7, hH]
          · rw [List.filter_cons_of_neg (by simpa using hmedia)]
            exact hF

/-- Claim C1, counterexample: the claim asserts that every packet whose
decoded header has `packet_size < parameters_size` makes the sequencer
raise `MalformedPacketError`.  In `c1bad` the first packet (non-media,
type 1) has `packet_size = 0 < 5 = parameters_size`, yet sequencing
completes without any error — in particular no `MalformedPacketError`. -/
theorem c1_counterexample :
    chunks_generator c1bad = .ok [] ∧
    chunks_generator c1bad ≠ .error .malformedPacket := by
  decide

/-- Claim C1, amended: the size invariant is only ever felt on media
packets — a media packet with `packet_size < parameters_size` makes the
sequencer fail for this file with the struct format error produced by
the negative computed payload length (so a negative-length payload is
never sliced into a chunk) — while a non-media packet violating the
invariant is not checked at all: the loop just advances past it. -/
theorem c1_theorem :
    (∀ (data : List Nat) (c fuel : Nat) (h : Header), 1 ≤ fuel →
      get_packet_header (pySlice data (c : Int) ((c : Int) + 28)) = .ok h →
      isMedia h = true → h.packet_size < h.parameters_size →
      chunksFromF fuel data c = .error .badStructFormat) ∧
    (∀ (data : List Nat) (c fuel : Nat) (h : Header),
      get_packet_header (pySlice data (c : Int) ((c : Int) + 28)) = .ok h →
      isMedia h = false → h.packet_type ≠ 7 →
      chunksFromF (fuel + 1) data c = chunksFromF fuel data (c + h.packet_size + 28)) := by
  constructor
  · intro data c fuel h hf hph hm hlt
    obtain ⟨k, rfl⟩ : ∃ k, fuel = k + 1 := ⟨fuel - 1, by omega⟩
    simp only [chunksFromF, hph]
    rw [if_pos hm, mkChunk_of_undersized hlt]
  · intro data c fuel h hph hm h7
    simp only [chunksFromF, hph]
    rw [if_neg (by simp [hm]), if_neg h7]

/-- Claim C1, witness: a concrete media packet with
`packet_size = 0 < 5 = parameters_size` fails with the struct format
error. -/
theorem c1_witness : chunksFromF 1 c1data 0 = .error .badStructFormat :=
  c1_theorem.1 c1data 0 1 c1hdr (by decide) (by decide) (by decide) (by decide)

/-- Claim C2: whenever fewer than 28 bytes remain at the cursor where a
packet header is expected, header decoding fails with the
truncated-header error (the `struct.error` of `get_packet_header`, which
the spec names `TruncatedHeaderError`), fatally for the current file. -/
theorem c2_theorem (data : List Nat) (c fuel : Nat) (hf : 1 ≤ fuel)
    (hlen : data.length < c + 28) :
    chunksFromF fuel data c = .error .truncatedHeader :=
  chunksFromF_short fuel data c hf hlen

/-- Claim C2, witness: the empty container fails immediately with the
truncated-header error. -/
theorem c2_witness : chunksFromF 1 [] 0 = .error .truncatedHeader :=
  c2_theorem [] 0 1 (by decide) (by decide)

/-- Claim C3, counterexample: the claim asserts that a cursor advance
past the container end before a type-7 packet raises
`UnterminatedStreamError`.  In `c3bad` (one non-terminal packet claiming
`packet_size = 100` in a 28-byte container) the run instead fails with
the truncated-header error of the next header read; no
`UnterminatedStreamError` exists in the code. -/
theorem c3_counterexample :
    chunks_generator c3bad = .error .truncatedHeader ∧
    chunks_generator c3bad ≠ .error .unterminatedStream := by
  decide

/-- Claim C3, amended: there is no pre-advance bounds check and no
distinct `UnterminatedStreamError`.  When advancing the cursor by
`28 + packet_size` over a non-media, non-terminal packet would exceed
the container length, the loop still advances and the next iteration's
header decode fails with the truncated-header struct error; no
out-of-range bytes are ever read (Python slicing clamps to the
container). -/
theorem c3_theorem (data : List Nat) (c fuel : Nat) (h : Header) (hf : 2 ≤ fuel)
    (hph : get_packet_header (pySlice data (c : Int) ((c : Int) + 28)) = .ok h)
    (hm : isMedia h = false) (h7 : h.packet_type ≠ 7)
    (hov : data.length < c + 28 + h.packet_size) :
    chunksFromF fuel data c = .error .truncatedHeader := by
  obtain ⟨k, rfl⟩ : ∃ k, fuel = k + 1 := ⟨fuel - 1, by omega⟩
  simp only [chunksFromF, hph]
  rw [if_neg (by simp [hm]), if_neg h7]
  exact chunksFromF_short k data (c + h.packet_size + 28) (by omega) (by omega)

/-- Claim C3, witness: the concrete overrunning container `c3bad`
fails with the truncated-header error. -/
theorem c3_witness : chunksFromF 2 c3bad 0 = .error .truncatedHeader :=
  c3_theorem c3bad 0 2 c3hdr (by decide) (by decide) (by decide) (by decide) (by decide)

/-- Claim C4: at the first packet whose header has `packet_type == 7`,
sequencing stops immediately and successfully: no further packet is
decoded, no chunk is emitted from it (type 7 is never a media type), and
any bytes remaining in the container after it are ignored without
error. -/
theorem c4_theorem (data : List Nat) (c fuel : Nat) (h : Header) (hf : 1 ≤ fuel)
    (hph : get_packet_header (pySlice data (c : Int) ((c : Int) + 28)) = .ok h)
    (h7 : h.packet_type = 7) :
    chunksFromF fuel data c = .ok [] := by
  obtain ⟨k, rfl⟩ : ∃ k, fuel = k + 1 := ⟨fuel - 1, by omega⟩
  simp only [chunksFromF, hph]
  rw [if_neg (by simp [isMedia_false_of_seven h7]), if_pos h7]

/-- Claim C4, witness: a type-7 header followed by three trailing bytes
stops cleanly with no chunks and no error. -/
theorem c4_witness : chunksFromF 1 c4data 0 = .ok [] :=
  c4_theorem c4data 0 1 termHdr (by decide) (by decide) (by decide)

/-- Claim C5: whenever the sequencer completes successfully, the emitted
chunks are in bijection (in order) with the packets of the run's packet
trace that satisfy the media predicate; each chunk's byte length equals
`packet_size - parameters_size` of its source packet, and its bytes are
exactly the container bytes immediately following that packet's
parameter block. -/
theorem c5_theorem (data : List Nat) (chunks : List Chunk)
    (hc : chunks_generator data = .ok chunks) :
    ∃ hdrs, headersFromF (data.length + 1) data 0 = .ok hdrs ∧
      chunks.length = (hdrs.filter (fun p => isMedia p.2)).length ∧
      List.Forall₂ (fun p ch =>
          (ch.bytes.length : Int) = (p.2.packet_size : Int) - (p.2.parameters_size : Int) ∧
          ch.bytes = pySlice data ((p.1 : Int) + 28 + (p.2.parameters_size : Int))
            ((p.1 : Int) + 28 + (p.2.packet_size : Int)))
        (hdrs.filter (fun p => isMedia p.2)) chunks := by
  obtain ⟨hdrs, hH, hF⟩ := chunks_headers_rel (data.length + 1) data 0 chunks hc
  refine ⟨hdrs, hH, hF.length_eq.symm, ?_⟩
  exact hF.imp (fun p ch hmk => ⟨(mkChunk_ok hmk).2.1, (mkChunk_ok hmk).1⟩)

/-- Claim C5, witness: the spec §8 concrete scenario — one media packet
(type 4, subtype 0, stream 0, `packet_size = 50`, `parameters_size = 22`,
compression marker record with code 3) then a terminal packet — yields
exactly one chunk with 28 payload bytes, matching its packet trace. -/
theorem c5_witness :
    chunks_generator c5data = .ok c5chunks ∧
    (∃ hdrs, headersFromF (c5data.length + 1) c5data 0 = .ok hdrs ∧
      c5chunks.length = (hdrs.filter (fun p => isMedia p.2)).length ∧
      List.Forall₂ (fun p ch =>
          (ch.bytes.length : Int) = (p.2.packet_size : Int) - (p.2.parameters_size : Int) ∧
          ch.bytes = pySlice c5data ((p.1 : Int) + 28 + (p.2.parameters_size : Int))
            ((p.1 : Int) + 28 + (p.2.packet_size : Int)))
        (hdrs.filter (fun p => isMedia p.2)) c5chunks) :=
  ⟨by decide, c5_theorem c5data c5chunks (by decide)⟩

/-- Claim C6, counterexample: the claim asserts that a malformed trailing
partial record (fewer than 22 bytes remaining) never makes the scan fail
and is simply not considered.  On the 1-byte parameter block `[0]` the
scan instead raises `struct.error` (buffer mismatch on the 2-byte
`type_id` unpack) — it does not return the no-marker result `None`. -/
theorem c6_counterexample :
    get_compression_type [0] = .error .bufferMismatch ∧
    get_compression_type [0] ≠ .ok none := by
  decide

/-- Claim C6, amended: the scan returns the extractor's result for the
first complete 22-byte record whose `type_id == 10`, scanning no further;
it returns `None` once the scan position reaches the end of the block
(so a block whose length is a multiple of 22 with no marker yields
`None`); a full record with `type_id != 10` is skipped; but a trailing
partial record (fewer than 22 bytes remaining at the scan position)
reached without an earlier match makes the scan fail with a struct
buffer-mismatch error instead of being ignored. -/
theorem c6_theorem :
    (∀ (data : List Nat) (i fuel : Nat) (dsz : Int) (temp : List Nat), 1 ≤ fuel →
      i < data.length →
      unpack_h (pySlice data (i : Int) ((i : Int) + 2)) = .ok 10 →
      unpack_i (pySlice data ((i : Int) + 2) ((i : Int) + 6)) = .ok dsz →
      unpack_16s (pySlice data ((i : Int) + 6) ((i : Int) + 22)) = .ok temp →
      scanRecordsF fuel data i = (get_data_value temp dsz).map some) ∧
    (∀ (data : List Nat) (i fuel : Nat), 1 ≤ fuel → data.length ≤ i →
      scanRecordsF fuel data i = .ok none) ∧
    (∀ (data : List Nat) (i fuel : Nat), 1 ≤ fuel → i < data.length →
      data.length < i + 22 →
      scanRecordsF fuel data i = .error .bufferMismatch) ∧
    (∀ (data : List Nat) (i fuel : Nat) (tid dsz : Int) (temp : List Nat),
      i < data.length →
      unpack_h (pySlice data (i : Int) ((i : Int) + 2)) = .ok tid → tid ≠ 10 →
      unpack_i (pySlice data ((i : Int) + 2) ((i : Int) + 6)) = .ok dsz →
      unpack_16s (pySlice data ((i : Int) + 6) ((i : Int) + 22)) = .ok temp →
      scanRecordsF (fuel + 1) data i = scanRecordsF fuel data (i + 22)) := by
  refine ⟨?_, ?_, ?_, ?_⟩
  · intro data i fuel dsz temp hf hi hh hdsz htemp
    obtain ⟨k, rfl⟩ : ∃ k, fuel = k + 1 := ⟨fuel - 1, by omega⟩
    simp only [scanRecordsF, hh, hdsz, htemp]
    rw [if_pos hi]
    simp only [if_true]
    cases get_data_value temp dsz <;> rfl
  · intro data i fuel hf hi
    obtain ⟨k, rfl⟩ : ∃ k, fuel = k + 1 := ⟨fuel - 1, by omega⟩
    simp only [scanRecordsF]
    rw [if_neg (by omega)]
  · intro data i fuel hf hi hpart
    obtain ⟨k, rfl⟩ : ∃ k, fuel = k + 1 := ⟨fuel - 1, by omega⟩
    simp only [scanRecordsF]
    rw [if_pos hi]
    by_cases h2 : data.length < i + 2
    · rw [unpack_h_ne_two (by
        rw [pySlice_len_nonneg data (i : Int) ((i : Int) + 2) (by omega) (by omega)]
        omega)]
    · obtain ⟨v, hv⟩ := unpack_h_two (l := pySlice data (i : Int) ((i : Int) + 2)) (by
        rw [pySlice_len_nonneg data (i : Int) ((i : Int) + 2) (by omega) (by omega)]
        omega)
      simp only [hv]
      by_cases h6 : data.length < i + 6
      · rw [unpack_i_ne_four (by
          rw [pySlice_len_nonneg data ((i : Int) + 2) ((i : Int) + 6) (by omega) (by omega)]
          omega)]
      · obtain ⟨w, hw⟩ := unpack_i_four (l := pySlice data ((i : Int) + 2) ((i : Int) + 6)) (by
          rw [pySlice_len_nonneg data ((i : Int) + 2) ((i : Int) + 6) (by omega) (by omega)]
          omega)
        simp only [hw]
        rw [unpack_16s_ne (by
          rw [pySlice_len_nonneg data ((i : Int) + 6) ((i : Int) + 22) (by omega) (by omega)]
          omega)]
  · intro data i fuel tid dsz temp hi hh htid hdsz htemp
    simp only [scanRecordsF, hh, hdsz, htemp]
    rw [if_pos hi, if_neg htid]

/-- Claim C6, witness: concrete instances of all four amended clauses —
a matching record returns the extractor's result, an exhausted block
returns `None`, a 1-byte partial block fails with the buffer-mismatch
error, and a non-matching full record is skipped. -/
theorem c6_witness :
    scanRecordsF 1 c5rec 0 = (get_data_value ([3] ++ zeros 15) 1).map some ∧
    scanRecordsF 1 c5rec 22 = .ok none ∧
    scanRecordsF 1 [0] 0 = .error .bufferMismatch ∧
    scanRecordsF 2 c6rec2 0 = scanRecordsF 1 c6rec2 22 :=
  ⟨c6_theorem.1 c5rec 0 1 1 ([3] ++ zeros 15) (by decide) (by decide) (by decide)
      (by decide) (by decide),
   c6_theorem.2.1 c5rec 22 1 (by decide) (by decide),
   c6_theorem.2.2.1 [0] 0 1 (by decide) (by decide) (by decide),
   c6_theorem.2.2.2 c6rec2 0 1 9 1 ([3] ++ zeros 15) (by decide) (by decide)
      (by decide) (by decide) (by decide)⟩

/-- Claim C7, counterexample: the claim asserts that for every
`dataSize >= 1` the extractor returns the first byte of the payload as a
signed 8-bit integer.  For the payload `c7data` (first byte 3) and
`dataSize = 2` the final `struct.unpack("b", ...)` instead fails with a
buffer-mismatch `struct.error` (its argument holds 2 bytes, not 1). -/
theorem c7_counterexample :
    get_data_value c7data 2 = .error .bufferMismatch ∧
    get_data_value c7data 2 ≠ .ok 3 := by
  decide

/-- Claim C7, amended: for a 16-byte payload the extractor returns the
first byte reinterpreted as a signed 8-bit integer only when
`dataSize = 1`; for every other `dataSize` it raises a `struct.error`
(negative sizes make the format invalid, any other size makes one of the
two unpacks reject its buffer).  The secondary fallback path (re-read at
offset 8 when the decoded value is zero) never triggers and never
affects the result, for any `dataSize`: the guard compares a tuple with
the int 0 and is always false. -/
theorem get_data_value_of_err {data : List Nat} {n : Int} {e : PErr}
    (he : unpack_s n (pySlice data 0 n) = .error e) :
    get_data_value data n = .error e := by
  unfold get_data_value
  simp only [he]

theorem get_data_value_of_ok {data : List Nat} {n : Int} {dv : List Nat}
    (hok : unpack_s n (pySlice data 0 n) = .ok dv) :
    get_data_value data n = unpack_b dv := by
  unfold get_data_value
  simp only [hok, tupleEqInt, Bool.false_eq_true, if_false]

theorem c7_theorem (data : List Nat) (hlen : data.length = 16) :
    get_data_value data 1 = .ok (toInt8 (data.get ⟨0, by omega⟩)) ∧
    (∀ dsz : Int, dsz ≠ 1 → ∃ e, get_data_value data dsz = .error e) ∧
    (∀ dsz : Int, get_data_value data dsz = get_data_value_nofb data dsz) := by
  refine ⟨?_, ?_, ?_⟩
  · rcases data with _ | ⟨b0, rest⟩
    · simp at hlen
    · have hr : rest.length = 15 := by simpa using hlen
      show get_data_value (b0 :: rest) 1 = .ok (toInt8 b0)
      have hs : pySlice (b0 :: rest) 0 1 = [b0] := by
        simp [pySlice, pyIdx, hr]
      have hok : unpack_s 1 (pySlice (b0 :: rest) 0 1) = .ok [b0] := by
        rw [hs]
        simp [unpack_s]
      rw [get_data_value_of_ok hok]
      simp [unpack_b]
  · intro dsz hne
    by_cases hneg : dsz < 0
    · exact ⟨.badStructFormat, get_data_value_of_err (unpack_s_neg hneg)⟩
    · by_cases hbig : 16 < dsz
      · refine ⟨.bufferMismatch, get_data_value_of_err ?_⟩
        unfold unpack_s
        rw [if_neg (by omega), if_neg (by
          rw [pySlice_len_nonneg data 0 dsz (by omega) (by omega)]
          omega)]
      · refine ⟨.bufferMismatch, ?_⟩
        have hslen : (pySlice data 0 dsz).length = dsz.toNat := by
          rw [pySlice_len_nonneg data 0 dsz (by omega) (by omega)]
          omega
        have hok : unpack_s dsz (pySlice data 0 dsz) = .ok (pySlice data 0 dsz) := by
          unfold unpack_s
          rw [if_neg (by omega), if_pos (by rw [hslen]; omega)]
        rw [get_data_value_of_ok hok]
        rw [unpack_b_ne_one (by rw [hslen]; omega)]
  · intro dsz
    cases hu : unpack_s dsz (pySlice data 0 dsz) with
    | error e =>
      rw [get_data_value_of_err hu]
      unfold get_data_value_nofb
      simp only [hu]
    | ok dv0 =>
      rw [get_data_value_of_ok hu]
      unfold get_data_value_nofb
      simp only [hu]

/-- Claim C7, witness: on the concrete payload `c7data` (first byte 3)
the extractor returns 3 for `dataSize = 1`, fails for `dataSize = 2`,
and agrees with the fallback-free extractor at `dataSize = 0`. -/
theorem c7_witness :
    get_data_value c7data 1 = .ok (toInt8 (c7data.get ⟨0, by decide⟩)) ∧
    (∃ e, get_data_value c7data 2 = .error e) ∧
    get_data_value c7data 0 = get_data_value_nofb c7data 0 := by
  have h := c7_theorem c7data (by decide)
  exact ⟨h.1, h.2.1 2 (by decide), h.2.2 0⟩

/-- Claim C8, counterexample: the claim asserts each retained stream is
assigned the most recent non-unknown compression code among its own
chunks.  For the sequence `ex8` — stream 0 with code 3 (alaw), then
stream 1 with code 7 (mulaw) — the code instead encodes stream 0 with
`mulaw`, the codec of the other stream's last chunk, not the claimed
`alaw`. -/
theorem c8_counterexample :
    formatForStream ex8 0 = .ok "mulaw" ∧
    specStreamCodec ex8 0 = "alaw" ∧
    formatForStream ex8 0 ≠ .ok (specStreamCodec ex8 0) := by
  decide

/-- Claim C8, amended: the accumulator keeps a single compression value —
that of the last chunk overall, whatever its stream id and whether or not
that id is retained — and both retained streams are encoded with the
format selected from that one value: its codec-table entry when it is not
`None`, and `formats[0] = g729` when it is `None`.  Per-stream codes are
never tracked. -/
theorem c8_theorem (chunks : List Chunk) (c : Chunk)
    (hl : chunks.getLast? = some c) :
    formatForStream chunks 0 = pyFormatOf c.compression ∧
    formatForStream chunks 1 = pyFormatOf c.compression := by
  have hcomp : (accumulate chunks).compression = some c.compression := by
    rw [accumulate, foldl_accStep_compression, hl]
  have hsel : selectFormat (accumulate chunks) = pyFormatOf c.compression := by
    unfold selectFormat
    rw [hcomp]
    cases c.compression with
    | none => rfl
    | some v => rfl
  exact ⟨hsel, hsel⟩

/-- Claim C8, witness: the two-chunk sequence `ex8` gets, for both
streams, the format selected from the final chunk's code 7. -/
theorem c8_witness :
    formatForStream ex8 0 = pyFormatOf ex8last.compression ∧
    formatForStream ex8 1 = pyFormatOf ex8last.compression :=
  c8_theorem ex8 ex8last (by decide)

/-- Claim C9: a chunk whose `stream_id` is outside `{0, 1}` never changes
either retained buffer — after accumulation each buffer equals the
in-order concatenation of the bytes of exactly the chunks carrying that
stream's id. -/
theorem c9_theorem (chunks : List Chunk) :
    (accumulate chunks).buf0 = catBytes (chunks.filter (fun ch => ch.stream_id == 0)) ∧
    (accumulate chunks).buf1 = catBytes (chunks.filter (fun ch => ch.stream_id == 1)) := by
  constructor
  · rw [accumulate, foldl_accStep_buf0]
    exact List.nil_append _
  · rw [accumulate, foldl_accStep_buf1]
    exact List.nil_append _

/-- Claim C10: on a container whose chunk sequence is empty, the format
selection of `convert_to_mp3` reads the loop variable `compression`
before it was ever bound and fails with the unbound-variable `NameError`
instead of falling back to the documented g729 default; the default can
only apply when at least one chunk was yielded, because any chunk leaves
`compression` bound (to the last chunk's value). -/
theorem c10_theorem :
    (∀ data : List Nat, chunks_generator data = .ok [] →
      convert_to_mp3 data = .error .nameError) ∧
    (∀ (chunks : List Chunk) (c : Chunk), chunks.getLast? = some c →
      (accumulate chunks).compression = some c.compression) := by
  constructor
  · intro data hc
    unfold convert_to_mp3
    rw [hc]
    rfl
  · intro chunks c hl
    rw [accumulate, foldl_accStep_compression, hl]

/-- Claim C10, witness: a container holding only a terminal type-7
packet yields no chunks and the conversion fails with `NameError`; a
nonempty chunk sequence leaves `compression` bound. -/
theorem c10_witness :
    convert_to_mp3 termHdrBytes = .error .nameError ∧
    (accumulate ex8).compression = some ex8last.compression :=
  ⟨c10_theorem.1 termHdrBytes (by decide), c10_theorem.2 ex8 ex8last (by decide)⟩
